import Mathlib

/-
Verification development for the action-hero reporting tool (src/main.rs).

The program is a single linear pipeline:
  resolve configuration -> build API client -> list workflow runs ->
  pick the first run -> fetch its jobs -> print the per-job step report.

This file shallowly embeds that pipeline.  JSON values are modelled by the
inductive `Json` below (integer numbers only: every numeric field the
program touches is an i64 run identifier).  Rust panics (`unwrap`/`expect`)
and fatal errors are modelled by the `Err` taxonomy of the design notes:
configuration errors, transport errors, schema errors, and the remaining
bare panic (taking the first element of an empty run list).  Network calls
are modelled by passing the decoded response bodies as inputs.
-/

set_option autoImplicit false

/-- Error taxonomy of the tool: configuration errors (bad CLI input,
missing token), transport errors (network failure, unused in the pure
model), schema errors (unexpected or missing JSON shape/fields, timestamp
parse failure, all raised as panics in the Rust source), and the remaining
unclassified panic raised when picking the first run of an empty list. -/
inductive Err where
  | configuration
  | transport
  | schema
  | panicked
deriving DecidableEq, Repr

/-- Minimal model of `serde_json::Value`.  Numbers are modelled as integers
because the only numeric field the program reads is the i64 run id. -/
inductive Json where
  | null
  | bool (b : Bool)
  | num (n : Int)
  | str (s : String)
  | arr (elems : List Json)
  | obj (fields : List (String × Json))

/-- First-match lookup in an object's field list. -/
def lookupField : List (String × Json) → String → Json
  | [], _ => .null
  | (k, v) :: rest, key => if k = key then v else lookupField rest key

/-- Model of `serde_json` string indexing `value[key]`: returns the field's
value on an object, and `Null` on a missing key or a non-object. -/
def Json.get : Json → String → Json
  | .obj fields, key => lookupField fields key
  | _, _ => .null

/-- Model of `Value::as_str`. -/
def Json.asStr : Json → Option String
  | .str s => some s
  | _ => none

/-- Model of `Value::as_array` (the array's elements). -/
def Json.asArray : Json → Option (List Json)
  | .arr xs => some xs
  | _ => none

/-- Model of `Value::as_i64`: an integer number within the i64 range. -/
def Json.asI64 : Json → Option Int
  | .num n => if -(2 ^ 63) ≤ n ∧ n < 2 ^ 63 then some n else none
  | _ => none

/-- Model of Rust's `str::split_once` on a list of characters: split around
the first occurrence of `c`, or `none` when `c` does not occur. -/
def splitOnceList : List Char → Char → Option (List Char × List Char)
  | [], _ => none
  | x :: xs, c =>
    if x = c then some ([], xs)
    else
      match splitOnceList xs c with
      | none => none
      | some (a, b) => some (x :: a, b)

/-- Model of Rust's `str::split_once`. -/
def split_once (s : String) (c : Char) : Option (String × String) :=
  match splitOnceList s.toList c with
  | none => none
  | some (a, b) => some (String.mk a, String.mk b)

/-- Embeds main.rs lines 207-211: `repository.split_once('/')`, whose
`expect` panic is the configuration error of the design notes. -/
def resolveRepository (repository : String) : Except Err (String × String) :=
  match split_once repository '/' with
  | none => .error .configuration
  | some (owner, repo) => .ok (owner, repo)

/-- Validity of one character of an HTTP header value, following the http
crate: a byte is legal iff it is 32..=255 other than 127, or tab (9).
Characters above 127 encode to UTF-8 bytes that are all ≥ 128 and hence
legal, so the byte-level check coincides with this character-level one. -/
def validHeaderChar (c : Char) : Bool :=
  128 ≤ c.toNat || (32 ≤ c.toNat && c.toNat ≠ 127) || c.toNat = 9

/-- Validity of a whole HTTP header value (`HeaderValue::from_str`). -/
def validHeaderValue (s : String) : Bool :=
  s.toList.all validHeaderChar

/-- Modelled from the spec: the crate version from the build manifest
(Cargo.toml), which is not among the sources; the spec fixes only the
shape `<client-name>/<version>` of the User-Agent header, so the concrete
value below is a stand-in and no claim depends on it. -/
def CARGO_PKG_VERSION : String := "0.1.0"

/-- Embeds main.rs line 9: `concat!("v", env!("CARGO_PKG_VERSION"))`. -/
def VERSION : String := "v" ++ CARGO_PKG_VERSION

/-- The four default headers inserted by `setup_api_client`
(main.rs lines 126-153), in insertion order. -/
def githubHeaders (token : String) : List (String × String) :=
  [("Authorization", "Bearer " ++ token),
   ("Accept", "application/vnd.github+json"),
   ("User-Agent", "action-hero/" ++ VERSION),
   ("X-GitHub-Api-Version", "2022-11-28")]

/-- Model of the configured `reqwest::Client`: its default header map. -/
structure Client where
  defaultHeaders : List (String × String)
deriving DecidableEq, Repr

/-- Embeds `setup_api_client` (main.rs lines 120-159): reading the
GITHUB_TOKEN environment variable (`none` models an absent variable, whose
`expect` panic is the configuration error), building the Authorization
header from it (whose `parse().unwrap()` panics on a token with characters
illegal in a header value), and installing the four default headers. -/
def setup_api_client (envGithubToken : Option String) : Except Err Client :=
  match envGithubToken with
  | none => .error .configuration
  | some token =>
    if validHeaderValue ("Bearer " ++ token) then
      .ok { defaultHeaders := githubHeaders token }
    else
      .error .configuration

/-- Embeds the `API` struct of main.rs lines 13-18. -/
structure API where
  client : Client
  owner : String
  repository : String
  workflow : String

/-- The run-listing URL of main.rs lines 23-26. -/
def runsUrl (api : API) : String :=
  "https://api.github.com/repos/" ++ api.owner ++ "/" ++ api.repository ++
    "/actions/workflows/" ++ api.workflow ++ "/runs?per_page=10&page=1"

/-- The job-listing URL of main.rs lines 57-60. -/
def jobsUrl (api : API) (runId : String) : String :=
  "https://api.github.com/repos/" ++ api.owner ++ "/" ++ api.repository ++
    "/actions/runs/" ++ runId ++ "/jobs"

/-- An outbound HTTP request as the client issues it: method, URL, and the
client's default headers. -/
structure Request where
  method : String
  url : String
  headers : List (String × String)

/-- The request issued by `retrieve_workflow_runs` (main.rs lines 29-33). -/
def runsRequest (api : API) : Request :=
  { method := "GET", url := runsUrl api, headers := api.client.defaultHeaders }

/-- The request issued by `retrieve_run_jobs` (main.rs lines 64-68). -/
def jobsRequest (api : API) (runId : String) : Request :=
  { method := "GET", url := jobsUrl api runId, headers := api.client.defaultHeaders }

/-- The id-extraction loop of main.rs lines 43-51: each entry's `id` field
read with `as_i64().expect(..)` (a schema error on failure) and rendered
with `to_string()`. -/
def extractRunIds : List Json → Except Err (List String)
  | [] => .ok []
  | r :: rs =>
    match (r.get "id").asI64 with
    | none => .error .schema
    | some id =>
      match extractRunIds rs with
      | .error e => .error e
      | .ok tl => .ok (toString id :: tl)

/-- Embeds `retrieve_workflow_runs` (main.rs lines 20-54) applied to the
decoded response body: the `workflow_runs` field must be an array (schema
error otherwise), of which the first 10 entries are mapped to run ids. -/
def retrieve_workflow_runs (body : Json) : Except Err (List String) :=
  match (body.get "workflow_runs").asArray with
  | none => .error .schema
  | some runs => extractRunIds (runs.take 10)

/-- Embeds `retrieve_run_jobs` (main.rs lines 56-80) applied to the decoded
response body: the `jobs` field must be an array (schema error otherwise),
returned verbatim. -/
def retrieve_run_jobs (body : Json) : Except Err (List Json) :=
  match (body.get "jobs").asArray with
  | none => .error .schema
  | some jobs => .ok jobs

/-- Embeds `runs.first().unwrap()` of main.rs lines 233-236: a panic on an
empty run list. -/
def pickFirstRun (runs : List String) : Except Err String :=
  match runs with
  | [] => .error .panicked
  | r :: _ => .ok r

/-- Reads exactly `k` decimal digits, accumulating into `acc`. -/
def readNatAux : Nat → Nat → List Char → Option (Nat × List Char)
  | 0, acc, cs => some (acc, cs)
  | _ + 1, _, [] => none
  | k + 1, acc, c :: cs =>
    if '0' ≤ c ∧ c ≤ '9' then readNatAux k (acc * 10 + (c.toNat - 48)) cs
    else none

/-- Consumes one expected character. -/
def expectChar (c : Char) : List Char → Option (List Char)
  | [] => none
  | x :: xs => if x = c then some xs else none

/-- Consumes the date/time separator, `T` or `t`. -/
def expectT : List Char → Option (List Char)
  | [] => none
  | c :: cs => if c = 'T' ∨ c = 't' then some cs else none

/-- Reads up to `k` remaining fraction digits, failing on a further digit
once `k` is exhausted; the accumulated value is scaled to nanoseconds. -/
def readFrac : Nat → Nat → List Char → Option (Nat × List Char)
  | k, acc, [] => some (acc * 10 ^ k, [])
  | k, acc, c :: cs =>
    if '0' ≤ c ∧ c ≤ '9' then
      match k with
      | 0 => none
      | k' + 1 => readFrac k' (acc * 10 + (c.toNat - 48)) cs
    else some (acc * 10 ^ k, c :: cs)

/-- Reads an optional fractional-second component `.d{1,9}`, in
nanoseconds. -/
def readFracOpt : List Char → Option (Nat × List Char)
  | '.' :: c :: cs =>
    if '0' ≤ c ∧ c ≤ '9' then readFrac 9 0 (c :: cs) else none
  | cs => some (0, cs)

/-- Gregorian leap-year test. -/
def leapYear (y : Nat) : Bool :=
  (y % 4 = 0 && y % 100 ≠ 0) || y % 400 = 0

/-- Length of month `m` (1-12) in year `y`. -/
def daysInMonth (y m : Nat) : Nat :=
  if m = 1 then 31 else if m = 2 then (if leapYear y then 29 else 28)
  else if m = 3 then 31 else if m = 4 then 30 else if m = 5 then 31
  else if m = 6 then 30 else if m = 7 then 31 else if m = 8 then 31
  else if m = 9 then 30 else if m = 10 then 31 else if m = 11 then 30
  else if m = 12 then 31 else 0

/-- Days before month `m` in a non-leap year. -/
def cumDays (m : Nat) : Nat :=
  if m = 1 then 0 else if m = 2 then 31 else if m = 3 then 59
  else if m = 4 then 90 else if m = 5 then 120 else if m = 6 then 151
  else if m = 7 then 181 else if m = 8 then 212 else if m = 9 then 243
  else if m = 10 then 273 else if m = 11 then 304 else 334

/-- Days from 0000-01-01 to the given proleptic-Gregorian civil date. -/
def daysSinceYear0 (y m d : Nat) : Nat :=
  365 * y + (y + 3) / 4 - (y + 99) / 100 + (y + 399) / 400
    + cumDays m + (if 2 < m && leapYear y then 1 else 0) + (d - 1)

/-- Parses the trailing UTC-offset component of an RFC 3339 date-time
(`Z`, `z`, or `±hh:mm`, which must end the input), in seconds. -/
def parseOffsetEnd : List Char → Option Int
  | [c] => if c = 'Z' ∨ c = 'z' then some 0 else none
  | c :: cs =>
    if c = '+' ∨ c = '-' then
      match readNatAux 2 0 cs with
      | none => none
      | some (oh, cs2) =>
        match expectChar ':' cs2 with
        | none => none
        | some cs3 =>
          match readNatAux 2 0 cs3 with
          | some (om, []) =>
            if oh ≤ 23 ∧ om ≤ 59 then
              some ((if c = '-' then (-1 : Int) else 1) *
                ((oh * 3600 + om * 60 : Nat) : Int))
            else none
          | _ => none
    else none
  | [] => none

/-- Model of `OffsetDateTime::parse(s, &Rfc3339)` from the time crate, as
used on main.rs lines 110-111: a full RFC 3339 date-time
`YYYY-MM-DDThh:mm:ss[.frac](Z|±hh:mm)` with validated calendar fields,
mapped to nanoseconds since the Unix epoch.  `none` models the parse
error whose `unwrap` is a schema error. -/
def parseRfc3339 (s : String) : Option Int := do
  let (y, cs1) ← readNatAux 4 0 s.toList
  let cs2 ← expectChar '-' cs1
  let (mo, cs3) ← readNatAux 2 0 cs2
  let cs4 ← expectChar '-' cs3
  let (d, cs5) ← readNatAux 2 0 cs4
  let cs6 ← expectT cs5
  let (h, cs7) ← readNatAux 2 0 cs6
  let cs8 ← expectChar ':' cs7
  let (mi, cs9) ← readNatAux 2 0 cs8
  let cs10 ← expectChar ':' cs9
  let (sec, cs11) ← readNatAux 2 0 cs10
  let (fracNs, cs12) ← readFracOpt cs11
  let off ← parseOffsetEnd cs12
  if 1 ≤ mo ∧ mo ≤ 12 ∧ 1 ≤ d ∧ d ≤ daysInMonth y mo ∧
      h ≤ 23 ∧ mi ≤ 59 ∧ sec ≤ 59 then
    some ((((daysSinceYear0 y mo d : Int) - 719528) * 86400
        + ((h * 3600 + mi * 60 + sec : Nat) : Int) - off) * 1000000000
        + (fracNs : Int))
  else none

/-- One component of the time crate's `Duration` display: the value with
its unit suffix, or nothing when the value is zero. -/
def durItem (value : Nat) (unit : String) : String :=
  if value = 0 then "" else toString value ++ unit

/-- Model of the time crate's `Display for Duration` (no precision): `0s`
for zero, otherwise a leading `-` for negative durations followed by the
nonzero components among days, hours, minutes, seconds, milliseconds,
microseconds, nanoseconds.  The duration is nanoseconds as an integer. -/
def showDuration (ns : Int) : String :=
  if ns = 0 then "0s"
  else
    let sign := if ns < 0 then "-" else ""
    let a := ns.natAbs
    let secs := a / 1000000000
    let nanos := a % 1000000000
    sign ++ durItem (secs / 86400) "d" ++ durItem (secs / 3600 % 24) "h"
      ++ durItem (secs / 60 % 60) "m" ++ durItem (secs % 60) "s"
      ++ durItem (nanos / 1000000) "ms" ++ durItem (nanos / 1000 % 1000) "µs"
      ++ durItem (nanos % 1000) "ns"

/-- Embeds the per-step body of `display_job_steps` (main.rs lines 94-115):
the four string fields read with `as_str().unwrap()` in source order, both
timestamps parsed as RFC 3339 (each `unwrap` a schema error), and the
printed line `    <name>: <status>, <duration>` with the duration the
finish instant minus the start instant. -/
def processStep (step : Json) : Except Err String :=
  match (step.get "name").asStr with
  | none => .error .schema
  | some nm =>
    match (step.get "status").asStr with
    | none => .error .schema
    | some st =>
      match (step.get "started_at").asStr with
      | none => .error .schema
      | some sa =>
        match (step.get "completed_at").asStr with
        | none => .error .schema
        | some ca =>
          match parseRfc3339 sa with
          | none => .error .schema
          | some t0 =>
            match parseRfc3339 ca with
            | none => .error .schema
            | some t1 =>
              .ok ("    " ++ nm ++ ": " ++ st ++ ", " ++ showDuration (t1 - t0))

/-- The step loop of `display_job_steps`: the lines printed before a
possible fatal error, and that error.  A failing step prints nothing of
its own but the lines of the steps before it stand. -/
def processSteps : List Json → List String × Option Err
  | [] => ([], none)
  | s :: rest =>
    match processStep s with
    | .error e => ([], some e)
    | .ok line =>
      match processSteps rest with
      | (ls, e) => (line :: ls, e)

/-- Embeds `display_job_steps` (main.rs lines 82-118) as the list of lines
printed before a possible fatal error, paired with that error: for each
job, the name is read (its `unwrap` a schema error, before anything of the
job is printed), printed on its own line, then `steps` must be an array
(schema error after the name line), then the steps are processed in
order; an error stops the whole report. -/
def displayJobSteps : List Json → List String × Option Err
  | [] => ([], none)
  | job :: rest =>
    match (job.get "name").asStr with
    | none => ([], some .schema)
    | some nm =>
      match (job.get "steps").asArray with
      | none => ([nm], some .schema)
      | some steps =>
        match processSteps steps with
        | (ls, some e) => (nm :: ls, some e)
        | (ls, none) =>
          match displayJobSteps rest with
          | (ls2, e2) => (nm :: (ls ++ ls2), e2)

/-- Model of `println!("runs: {:#?}", runs)` (main.rs line 231): Rust's
pretty Debug rendering of a `Vec<String>`.  Run ids are decimal strings,
so no Debug escaping arises inside the quotes. -/
def renderRunsLine (runs : List String) : String :=
  match runs with
  | [] => "runs: []"
  | _ =>
    "runs: [\n" ++ String.join (runs.map (fun r => "    \"" ++ r ++ "\",\n"))
      ++ "]"

/-- The inputs of one program execution: the two positional arguments, the
GITHUB_TOKEN environment variable (`none` when absent), and the decoded
bodies of the two HTTP responses. -/
structure MainInput where
  repository : String
  workflow : String
  githubToken : Option String
  runsResponse : Json
  jobsResponse : Json

/-- Embeds the pipeline of `main` (main.rs lines 162-245): resolve the
repository argument, build the client from the environment token, list the
runs, print them, pick the first run, fetch and display its jobs.  The
result is the list of stdout lines printed before a possible fatal error,
paired with that error. -/
def main_model (inp : MainInput) : List String × Option Err :=
  match resolveRepository inp.repository with
  | .error e => ([], some e)
  | .ok _ =>
    match setup_api_client inp.githubToken with
    | .error e => ([], some e)
    | .ok _ =>
      match retrieve_workflow_runs inp.runsResponse with
      | .error e => ([], some e)
      | .ok runs =>
        match pickFirstRun runs with
        | .error e => ([renderRunsLine runs], some e)
        | .ok _ =>
          match retrieve_run_jobs inp.jobsResponse with
          | .error e => ([renderRunsLine runs], some e)
          | .ok jobs =>
            match displayJobSteps jobs with
            | (ls, e) => (renderRunsLine runs :: ls, e)

/-- A synthetic step record fixture, mirroring the StepRecord entity:
name, status, and the two RFC 3339 timestamps. -/
structure StepFix where
  name : String
  status : String
  started_at : String
  completed_at : String
deriving DecidableEq, Repr

/-- A synthetic job record fixture, mirroring the JobRecord entity. -/
structure JobFix where
  name : String
  steps : List StepFix
deriving DecidableEq, Repr

/-- Serializes a step fixture to the JSON shape the jobs endpoint uses. -/
def encodeStep (s : StepFix) : Json :=
  .obj [("name", .str s.name), ("status", .str s.status),
        ("started_at", .str s.started_at), ("completed_at", .str s.completed_at)]

/-- Serializes a job fixture to the JSON shape the jobs endpoint uses. -/
def encodeJob (j : JobFix) : Json :=
  .obj [("name", .str j.name), ("steps", .arr (j.steps.map encodeStep))]

/-- Serializes a jobs-listing fixture to a response body. -/
def encodeJobsBody (jobs : List JobFix) : Json :=
  .obj [("jobs", .arr (jobs.map encodeJob))]

/-- One run entry of a runs-listing fixture, carrying its numeric id. -/
def mkRunEntry (i : Int) : Json := .obj [("id", .num i)]

/-- Serializes a runs-listing fixture to a response body. -/
def encodeRunsBody (ids : List Int) : Json :=
  .obj [("workflow_runs", .arr (ids.map mkRunEntry))]

/-- Well-formedness of a step fixture: both timestamps parse as RFC 3339. -/
def stepWf (s : StepFix) : Prop :=
  (parseRfc3339 s.started_at).isSome = true ∧
    (parseRfc3339 s.completed_at).isSome = true

instance (s : StepFix) : Decidable (stepWf s) := by
  unfold stepWf; infer_instance

/-- The duration a well-formed step fixture carries: completion instant
minus start instant, in nanoseconds. -/
def stepDurationNs (s : StepFix) : Int :=
  (parseRfc3339 s.completed_at).getD 0 - (parseRfc3339 s.started_at).getD 0

/-- The report line a well-formed step fixture should produce. -/
def expectedStepLine (s : StepFix) : String :=
  "    " ++ s.name ++ ": " ++ s.status ++ ", " ++ showDuration (stepDurationNs s)

/-- The full report a list of well-formed job fixtures should produce: for
each job in order, its name line, then one line per step in order. -/
def reportOf : List JobFix → List String
  | [] => []
  | j :: rest => j.name :: (j.steps.map expectedStepLine ++ reportOf rest)

/-- The ids carried by a list of run entries, when every entry has one. -/
def idsOf : List Json → Option (List Int)
  | [] => some []
  | e :: es =>
    match (e.get "id").asI64 with
    | none => none
    | some i =>
      match idsOf es with
      | none => none
      | some tl => some (i :: tl)

theorem splitOnceList_of_not_mem (cs : List Char) (c : Char) (h : c ∉ cs) :
    splitOnceList cs c = none := by
  induction cs with
  | nil => rfl
  | cons x xs ih =>
    simp only [List.mem_cons, not_or] at h
    have hne : ¬ x = c := fun hx => h.1 hx.symm
    simp only [splitOnceList, if_neg hne, ih h.2]

theorem splitOnceList_append (a b : List Char) (c : Char) (h : c ∉ a) :
    splitOnceList (a ++ c :: b) c = some (a, b) := by
  induction a with
  | nil => simp [splitOnceList]
  | cons x xs ih =>
    simp only [List.mem_cons, not_or] at h
    have hne : ¬ x = c := fun hx => h.1 hx.symm
    simp only [List.cons_append, splitOnceList, if_neg hne, List.append_eq, ih h.2]

theorem toList_append (s t : String) : (s ++ t).toList = s.toList ++ t.toList := by
  cases s; cases t; rfl

theorem resolveRepository_split (owner repo : String) (h : '/' ∉ owner.toList) :
    resolveRepository (owner ++ "/" ++ repo) = .ok (owner, repo) := by
  have hl : (owner ++ "/" ++ repo).toList = owner.toList ++ '/' :: repo.toList := by
    rw [toList_append, toList_append, List.append_assoc]
    rfl
  simp only [resolveRepository, split_once, hl,
    splitOnceList_append owner.toList repo.toList '/' h]
  rfl

theorem takeMap {α β : Type} (f : α → β) (n : Nat) (l : List α) :
    (l.map f).take n = (l.take n).map f := by
  induction l generalizing n with
  | nil => simp
  | cons x xs ih =>
    cases n with
    | zero => simp
    | succ n' => simp only [List.map_cons, List.take_succ_cons, ih n']

theorem extractRunIds_of_idsOf (l : List Json) (ids : List Int)
    (h : idsOf l = some ids) :
    extractRunIds l = .ok (ids.map toString) := by
  induction l generalizing ids with
  | nil =>
    simp only [idsOf, Option.some.injEq] at h
    subst h; rfl
  | cons e es ih =>
    simp only [idsOf] at h
    cases hi : (Json.get e "id").asI64 with
    | none => simp [hi] at h
    | some i =>
      simp only [hi] at h
      cases hr : idsOf es with
      | none => simp [hr] at h
      | some tl =>
        simp only [hr, Option.some.injEq] at h
        subst h
        simp only [extractRunIds, hi, ih tl hr, List.map_cons]

theorem idsOf_take (l : List Json) (ids : List Int) (n : Nat)
    (h : idsOf l = some ids) :
    idsOf (l.take n) = some (ids.take n) := by
  induction l generalizing ids n with
  | nil =>
    simp only [idsOf, Option.some.injEq] at h
    subst h; simp [idsOf]
  | cons e es ih =>
    simp only [idsOf] at h
    cases hi : (Json.get e "id").asI64 with
    | none => simp [hi] at h
    | some i =>
      simp only [hi] at h
      cases hr : idsOf es with
      | none => simp [hr] at h
      | some tl =>
        simp only [hr, Option.some.injEq] at h
        subst h
        cases n with
        | zero => simp [idsOf]
        | succ n' => simp only [List.take_succ_cons, idsOf, hi, ih tl n' hr]

theorem idsOf_length (l : List Json) (ids : List Int)
    (h : idsOf l = some ids) : ids.length = l.length := by
  induction l generalizing ids with
  | nil =>
    simp only [idsOf, Option.some.injEq] at h
    subst h; rfl
  | cons e es ih =>
    simp only [idsOf] at h
    cases hi : (Json.get e "id").asI64 with
    | none => simp [hi] at h
    | some i =>
      simp only [hi] at h
      cases hr : idsOf es with
      | none => simp [hr] at h
      | some tl =>
        simp only [hr, Option.some.injEq] at h
        subst h
        simp [ih tl hr]

theorem idsOf_map_mkRunEntry (ids : List Int)
    (h : ∀ i ∈ ids, -(2 ^ 63) ≤ i ∧ i < 2 ^ 63) :
    idsOf (ids.map mkRunEntry) = some ids := by
  induction ids with
  | nil => rfl
  | cons i tl ih =>
    have hmem := h i (List.mem_cons_self i tl)
    have hi : (Json.get (mkRunEntry i) "id").asI64 = some i := by
      show Json.asI64 (.num i) = some i
      simp only [Json.asI64]
      rw [if_pos hmem]
    simp only [List.map_cons, idsOf, hi,
      ih (fun x hx => h x (List.mem_cons_of_mem i hx))]

theorem processStep_fields (step : Json) (nm st sa ca : String) (t0 t1 : Int)
    (h1 : (step.get "name").asStr = some nm)
    (h2 : (step.get "status").asStr = some st)
    (h3 : (step.get "started_at").asStr = some sa)
    (h4 : (step.get "completed_at").asStr = some ca)
    (h5 : parseRfc3339 sa = some t0)
    (h6 : parseRfc3339 ca = some t1) :
    processStep step =
      .ok ("    " ++ nm ++ ": " ++ st ++ ", " ++ showDuration (t1 - t0)) := by
  simp only [processStep, h1, h2, h3, h4, h5, h6]

theorem processStep_badStatus (step : Json)
    (h : (step.get "status").asStr = none) :
    processStep step = .error .schema := by
  cases hn : (step.get "name").asStr with
  | none => simp only [processStep, hn]
  | some nm => simp only [processStep, hn, h]

theorem processStep_encodeStep (s : StepFix) (h : stepWf s) :
    processStep (encodeStep s) = .ok (expectedStepLine s) := by
  obtain ⟨h1, h2⟩ := h
  obtain ⟨t0, ht0⟩ := Option.isSome_iff_exists.mp h1
  obtain ⟨t1, ht1⟩ := Option.isSome_iff_exists.mp h2
  have hfields := processStep_fields (encodeStep s) s.name s.status
      s.started_at s.completed_at t0 t1 rfl rfl rfl rfl ht0 ht1
  rw [hfields]
  simp only [expectedStepLine, stepDurationNs, ht0, ht1, Option.getD_some]

theorem processSteps_encode (steps : List StepFix)
    (h : ∀ s ∈ steps, stepWf s) :
    processSteps (steps.map encodeStep) = (steps.map expectedStepLine, none) := by
  induction steps with
  | nil => rfl
  | cons s rest ih =>
    simp only [List.map_cons, processSteps,
      processStep_encodeStep s (h s (List.mem_cons_self s rest)),
      ih (fun x hx => h x (List.mem_cons_of_mem s hx))]

theorem displayJobSteps_encode (jobs : List JobFix)
    (h : ∀ j ∈ jobs, ∀ s ∈ j.steps, stepWf s) :
    displayJobSteps (jobs.map encodeJob) = (reportOf jobs, none) := by
  induction jobs with
  | nil => rfl
  | cons j rest ih =>
    have hname : (Json.get (encodeJob j) "name").asStr = some j.name := rfl
    have hsteps : (Json.get (encodeJob j) "steps").asArray
        = some (j.steps.map encodeStep) := rfl
    simp only [List.map_cons, displayJobSteps, hname, hsteps,
      processSteps_encode j.steps (h j (List.mem_cons_self j rest)),
      ih (fun x hx => h x (List.mem_cons_of_mem j hx)), reportOf]

theorem processSteps_append (xs ys : List Json) (lsx lsy : List String)
    (ey : Option Err) (hx : processSteps xs = (lsx, none))
    (hy : processSteps ys = (lsy, ey)) :
    processSteps (xs ++ ys) = (lsx ++ lsy, ey) := by
  induction xs generalizing lsx with
  | nil =>
    simp only [processSteps, Prod.mk.injEq] at hx
    simpa [← hx.1] using hy
  | cons s rest ih =>
    cases hs : processStep s with
    | error e => simp [processSteps, hs] at hx
    | ok line =>
      cases hr : processSteps rest with
      | mk ls e =>
        simp only [processSteps, hs, hr, Prod.mk.injEq] at hx
        obtain ⟨h1, h2⟩ := hx
        subst h2
        simp only [List.cons_append, processSteps, hs, List.append_eq,
          ih ls hr, ← h1, List.append_assoc]

theorem displayJobSteps_append (xs ys : List Json) (lsx lsy : List String)
    (ey : Option Err)
    (hx : displayJobSteps xs = (lsx, none))
    (hy : displayJobSteps ys = (lsy, ey)) :
    displayJobSteps (xs ++ ys) = (lsx ++ lsy, ey) := by
  induction xs generalizing lsx with
  | nil =>
    simp only [displayJobSteps, Prod.mk.injEq] at hx
    simpa [← hx.1] using hy
  | cons job rest ih =>
    cases hn : (Json.get job "name").asStr with
    | none => simp [displayJobSteps, hn] at hx
    | some nm =>
      cases hsArr : (Json.get job "steps").asArray with
      | none => simp [displayJobSteps, hn, hsArr] at hx
      | some steps =>
        cases hps : processSteps steps with
        | mk ls e =>
          cases e with
          | some err => simp [displayJobSteps, hn, hsArr, hps] at hx
          | none =>
            cases hrest : displayJobSteps rest with
            | mk ls2 e2 =>
              simp only [displayJobSteps, hn, hsArr, hps, hrest,
                Prod.mk.injEq] at hx
              obtain ⟨h1, h2⟩ := hx
              subst h2
              simp only [List.cons_append, displayJobSteps, hn, hsArr, hps,
                List.append_eq, ih ls2 hrest, ← h1, List.append_assoc]

/-- A step fixture in JSON form with valid fields and timestamps five
seconds apart. -/
def stepOkJson : Json :=
  .obj [("name", .str "init"), ("status", .str "completed"),
        ("started_at", .str "2024-01-01T00:00:00Z"),
        ("completed_at", .str "2024-01-01T00:00:05Z")]

/-- A step fixture in JSON form lacking its status field. -/
def stepNoStatusJson : Json := .obj [("name", .str "compile")]

/-- A fully well-formed job fixture in JSON form. -/
def goodJobJson : Json := .obj [("name", .str "setup"), ("steps", .arr [stepOkJson])]

/-- A job fixture in JSON form whose second step lacks its status. -/
def mixedJobJson : Json :=
  .obj [("name", .str "build"), ("steps", .arr [stepOkJson, stepNoStatusJson])]

/-- C1 counterexample: the repository argument `a/b/c` contains two
slashes, so by the claim configuration resolution should fail with a
ConfigurationError; instead it succeeds, splitting at the first slash. -/
theorem C1_counterexample :
    ("a/b/c".toList.count '/' = 2) ∧
      resolveRepository "a/b/c" = .ok ("a", "b/c") := by
  constructor
  · decide
  · rfl

/-- C1 (amended): configuration resolution succeeds exactly when the
repository argument contains at least one slash.  With no slash it fails
with a ConfigurationError, and the whole program then prints nothing and
stops with that error for every environment and every response, hence
before any network call; with at least one slash it splits around the
first slash, which for a string with exactly one slash is the correct
(owner, repo) pair. -/
theorem C1_resolveRepository_amended (s : String) :
    ('/' ∉ s.toList → resolveRepository s = .error .configuration)
    ∧ (∀ a b : List Char, s.toList = a ++ '/' :: b → '/' ∉ a →
        resolveRepository s = .ok (String.mk a, String.mk b))
    ∧ ('/' ∉ s.toList → ∀ wfName tok runsJ jobsJ,
        main_model ⟨s, wfName, tok, runsJ, jobsJ⟩
          = ([], some .configuration)) := by
  refine ⟨?_, ?_, ?_⟩
  · intro h
    simp only [resolveRepository, split_once,
      splitOnceList_of_not_mem s.toList '/' h]
  · intro a b hs ha
    simp only [resolveRepository, split_once, hs,
      splitOnceList_append a b '/' ha]
  · intro h wfName tok runsJ jobsJ
    have hres : resolveRepository s = .error .configuration := by
      simp only [resolveRepository, split_once,
        splitOnceList_of_not_mem s.toList '/' h]
    simp only [main_model, hres]

/-- C1 witness: `owner` (no slash) fails with a ConfigurationError, and
`owner/repo` (one slash) resolves to the correct pair. -/
theorem C1_witness :
    resolveRepository "owner" = .error .configuration ∧
      resolveRepository "owner/repo" = .ok ("owner", "repo") := by
  constructor
  · exact (C1_resolveRepository_amended "owner").1 (by decide)
  · exact (C1_resolveRepository_amended "owner/repo").2.1
      "owner".toList "repo".toList rfl (by decide)

/-- C2 counterexample: a jobs input whose only job has one step lacking a
status field.  The reporter does fail fatally with a SchemaError, but the
job's name line `build` is printed before the failure, contradicting the
claim that no line of that job is printed. -/
theorem C2_counterexample :
    displayJobSteps
        [Json.obj [("name", Json.str "build"),
          ("steps", Json.arr [Json.obj [("name", Json.str "checkout")]])]]
      = (["build"], some Err.schema) := rfl

/-- C2 (amended): for every jobs input in which some step has a missing or
non-string status field, the Step Reporter fails fatally with a
SchemaError and prints nothing at or after the malformed step; but the
report printed up to that point consists of the preceding jobs' full
reports, the failing job's name line, and the lines of that job's steps
preceding the malformed one — so the failing job's name line (a partial
report for that job) is printed. -/
theorem C2_badStatus_amended (pre more : List Json) (plines : List String)
    (job bad : Json) (nm : String) (good rest : List Json) (ls : List String)
    (h0 : displayJobSteps pre = (plines, none))
    (h1 : (job.get "name").asStr = some nm)
    (h2 : (job.get "steps").asArray = some (good ++ bad :: rest))
    (h3 : processSteps good = (ls, none))
    (h4 : (bad.get "status").asStr = none) :
    displayJobSteps (pre ++ job :: more)
      = (plines ++ nm :: ls, some Err.schema) := by
  have hbad : processStep bad = .error .schema := processStep_badStatus bad h4
  have htl : processSteps (bad :: rest) = ([], some Err.schema) := by
    simp only [processSteps, hbad]
  have hsteps : processSteps (good ++ bad :: rest) = (ls, some Err.schema) := by
    have := processSteps_append good (bad :: rest) ls [] (some Err.schema) h3 htl
    simpa using this
  have hjob : displayJobSteps (job :: more) = (nm :: ls, some Err.schema) := by
    simp only [displayJobSteps, h1, h2, hsteps]
  exact displayJobSteps_append pre (job :: more) plines (nm :: ls)
    (some Err.schema) h0 hjob

/-- C2 witness: a good job precedes the failing job, which has one good
step before its statusless step; the printed lines are the good job's
report, then the failing job's name and its first step line. -/
theorem C2_witness :
    displayJobSteps [goodJobJson, mixedJobJson]
      = (["setup", "    init: completed, 5s", "build",
          "    init: completed, 5s"], some Err.schema) :=
  C2_badStatus_amended [goodJobJson] [] ["setup", "    init: completed, 5s"]
    mixedJobJson stepNoStatusJson "build" [stepOkJson] []
    ["    init: completed, 5s"] rfl rfl rfl rfl rfl

/-- C3 counterexample: with the token variable present but empty, the
client is built successfully — `Bearer ` (trailing space) is a legal
header value — so the program does not fail with a ConfigurationError on
an empty token, contradicting the claim. -/
theorem C3_counterexample :
    setup_api_client (some "")
      = .ok { defaultHeaders := githubHeaders "" } := rfl

/-- C3 (amended): the token environment variable must be present: when it
is absent the program prints nothing and fails with a ConfigurationError
for every repository argument and every response, hence before any HTTP
request.  A present but empty token is accepted and the client is built. -/
theorem C3_token_amended :
    (∀ inp : MainInput, inp.githubToken = none →
      main_model inp = ([], some Err.configuration))
    ∧ setup_api_client (some "")
        = .ok { defaultHeaders := githubHeaders "" } := by
  constructor
  · intro inp h
    cases hsp : split_once inp.repository '/' with
    | none => simp only [main_model, resolveRepository, hsp, h]
    | some p =>
      obtain ⟨ow, rp⟩ := p
      simp only [main_model, resolveRepository, hsp, h, setup_api_client]
  · rfl

/-- C3 witness: a concrete execution with the token variable absent
prints nothing and stops with a ConfigurationError, its response bodies
never read. -/
theorem C3_witness :
    main_model ⟨"octocat/hello", "ci.yaml", none, Json.null, Json.null⟩
      = ([], some Err.configuration) :=
  C3_token_amended.1 _ rfl

/-- C4: for every run-listing response whose workflow_runs field holds N
entries (N ≤ 20), each carrying a numeric id, the Run Lister returns
exactly min(N, 10) identifiers, in response order, each the decimal
string of the entry's id; and with zero runs the program fails when it
picks the first run. -/
theorem C4_runLister (entries : List Json) (ids : List Int)
    (_hn : entries.length ≤ 20)
    (hids : idsOf entries = some ids) :
    retrieve_workflow_runs (Json.obj [("workflow_runs", Json.arr entries)])
        = .ok ((ids.take 10).map toString)
    ∧ ((ids.take 10).map toString).length = min entries.length 10
    ∧ pickFirstRun [] = .error .panicked := by
  refine ⟨?_, ?_, rfl⟩
  · exact extractRunIds_of_idsOf _ _ (idsOf_take entries ids 10 hids)
  · rw [List.length_map, List.length_take,
      idsOf_length entries ids hids, Nat.min_comm]

/-- C4 witness: a three-entry listing yields its three ids as strings in
order (min(3, 10) = 3 of them), and the empty listing leaves the run
picker failing. -/
theorem C4_witness :
    retrieve_workflow_runs (encodeRunsBody [101, 7, 55])
        = .ok ["101", "7", "55"]
    ∧ pickFirstRun [] = .error .panicked := by
  have h := C4_runLister (([101, 7, 55] : List Int).map mkRunEntry)
      [101, 7, 55] (by decide) rfl
  exact ⟨h.1, h.2.2⟩

/-- C5: for every step whose four fields are strings and whose two
timestamps parse as RFC 3339, the reported line carries exactly the
duration completedAt − startedAt, the difference of the two parsed
instants. -/
theorem C5_duration (step : Json) (nm st sa ca : String) (t0 t1 : Int)
    (h1 : (step.get "name").asStr = some nm)
    (h2 : (step.get "status").asStr = some st)
    (h3 : (step.get "started_at").asStr = some sa)
    (h4 : (step.get "completed_at").asStr = some ca)
    (h5 : parseRfc3339 sa = some t0)
    (h6 : parseRfc3339 ca = some t1) :
    processStep step =
      .ok ("    " ++ nm ++ ": " ++ st ++ ", " ++ showDuration (t1 - t0)) :=
  processStep_fields step nm st sa ca t0 t1 h1 h2 h3 h4 h5 h6

/-- C5 witness: startedAt 2024-01-01T00:00:00Z and completedAt
2024-01-01T00:00:05Z give a duration of exactly 5 seconds
(5000000000 nanoseconds), rendered as `5s`. -/
theorem C5_witness :
    processStep stepOkJson
      = .ok ("    " ++ "init" ++ ": " ++ "completed" ++ ", "
          ++ showDuration (1704067205000000000 - 1704067200000000000))
    ∧ (1704067205000000000 - 1704067200000000000 : Int) = 5 * 1000000000
    ∧ showDuration (1704067205000000000 - 1704067200000000000) = "5s" :=
  ⟨C5_duration stepOkJson "init" "completed" "2024-01-01T00:00:00Z"
      "2024-01-01T00:00:05Z" 1704067200000000000 1704067205000000000
      rfl rfl rfl rfl rfl rfl,
   by decide, rfl⟩

/-- C6: the reporter has no guard against completedAt earlier than
startedAt: when both timestamps parse and the finish instant precedes the
start instant, the step still succeeds, its line carrying the negative
difference completedAt − startedAt. -/
theorem C6_negativeDuration (step : Json) (nm st sa ca : String) (t0 t1 : Int)
    (h1 : (step.get "name").asStr = some nm)
    (h2 : (step.get "status").asStr = some st)
    (h3 : (step.get "started_at").asStr = some sa)
    (h4 : (step.get "completed_at").asStr = some ca)
    (h5 : parseRfc3339 sa = some t0)
    (h6 : parseRfc3339 ca = some t1)
    (hlt : t1 < t0) :
    processStep step =
      .ok ("    " ++ nm ++ ": " ++ st ++ ", " ++ showDuration (t1 - t0))
    ∧ t1 - t0 < 0 :=
  ⟨processStep_fields step nm st sa ca t0 t1 h1 h2 h3 h4 h5 h6, by omega⟩

/-- A step fixture whose completion timestamp precedes its start. -/
def stepRevJson : Json :=
  .obj [("name", .str "teardown"), ("status", .str "completed"),
        ("started_at", .str "2024-01-01T00:00:05Z"),
        ("completed_at", .str "2024-01-01T00:00:00Z")]

/-- C6 witness: a step finishing five seconds before it starts still
succeeds, with duration −5000000000 ns, rendered `-5s`. -/
theorem C6_witness :
    processStep stepRevJson
      = .ok ("    " ++ "teardown" ++ ": " ++ "completed" ++ ", "
          ++ showDuration (1704067200000000000 - 1704067205000000000))
    ∧ (1704067200000000000 - 1704067205000000000 : Int) < 0
    ∧ showDuration (1704067200000000000 - 1704067205000000000) = "-5s" := by
  have h := C6_negativeDuration stepRevJson "teardown" "completed"
      "2024-01-01T00:00:05Z" "2024-01-01T00:00:00Z"
      1704067205000000000 1704067200000000000 rfl rfl rfl rfl rfl rfl
      (by decide)
  exact ⟨h.1, h.2, rfl⟩

/-- C7: on a successful execution the console output is the pretty-printed
raw list of retrieved run identifiers first, followed by, for each job in
input order, the job's name on its own line and then one indented line per
step in input order of the form `    <step name>: <status>, <duration>`. -/
theorem C7_outputOrder (owner repo wfName token : String) (ids : List Int)
    (jobs : List JobFix)
    (how : '/' ∉ owner.toList)
    (htok : validHeaderValue ("Bearer " ++ token) = true)
    (hne : ids ≠ [])
    (hrange : ∀ i ∈ ids, -(2 ^ 63) ≤ i ∧ i < 2 ^ 63)
    (hwf : ∀ j ∈ jobs, ∀ s ∈ j.steps, stepWf s) :
    main_model ⟨owner ++ "/" ++ repo, wfName, some token,
        encodeRunsBody ids, encodeJobsBody jobs⟩
      = (renderRunsLine ((ids.take 10).map toString) :: reportOf jobs, none) := by
  have hres := resolveRepository_split owner repo how
  have hsetup : setup_api_client (some token)
      = .ok { defaultHeaders := githubHeaders token } := by
    simp only [setup_api_client, htok, if_true]
  have hruns : retrieve_workflow_runs (encodeRunsBody ids)
      = .ok ((ids.take 10).map toString) :=
    extractRunIds_of_idsOf _ _
      (idsOf_take _ _ 10 (idsOf_map_mkRunEntry ids hrange))
  obtain ⟨i0, tl, rfl⟩ := List.exists_cons_of_ne_nil hne
  have hpick : pickFirstRun (((i0 :: tl).take 10).map toString)
      = .ok (toString i0) := rfl
  have hjobs : retrieve_run_jobs (encodeJobsBody jobs)
      = .ok (jobs.map encodeJob) := rfl
  have hdisp := displayJobSteps_encode jobs hwf
  simp only [main_model, hres, hsetup, hruns, hpick, hjobs, hdisp]

/-- C7 witness: a one-run, one-job, one-step execution prints the runs
list line first, then the job name, then the indented step line. -/
theorem C7_witness :
    main_model ⟨"octo" ++ "/" ++ "hello", "ci.yaml", some "tok",
        encodeRunsBody [42],
        encodeJobsBody [⟨"build", [⟨"init", "completed",
          "2024-01-01T00:00:00Z", "2024-01-01T00:00:05Z"⟩]⟩]⟩
      = (["runs: [\n    \"42\",\n]", "build", "    init: completed, 5s"],
         none) :=
  Eq.trans
    (C7_outputOrder "octo" "hello" "ci.yaml" "tok" [42]
      [⟨"build", [⟨"init", "completed",
        "2024-01-01T00:00:00Z", "2024-01-01T00:00:05Z"⟩]⟩]
      (by decide) rfl (by decide) (by decide) (by decide))
    rfl

/-- C8: on a client built from the token, the run-listing request is a
GET to /repos/{owner}/{repo}/actions/workflows/{workflow}/runs with query
per_page=10&page=1, and both requests carry exactly the four default
headers: the bearer Authorization, the GitHub JSON Accept media type, the
`action-hero/<version>` User-Agent, and the API-version pin date. -/
theorem C8_requests (owner repo wfName token : String) (client : Client)
    (hc : setup_api_client (some token) = .ok client) :
    (runsRequest ⟨client, owner, repo, wfName⟩).method = "GET"
    ∧ (runsRequest ⟨client, owner, repo, wfName⟩).url
        = "https://api.github.com/repos/" ++ owner ++ "/" ++ repo
          ++ "/actions/workflows/" ++ wfName ++ "/runs?per_page=10&page=1"
    ∧ (runsRequest ⟨client, owner, repo, wfName⟩).headers
        = [("Authorization", "Bearer " ++ token),
           ("Accept", "application/vnd.github+json"),
           ("User-Agent", "action-hero/" ++ VERSION),
           ("X-GitHub-Api-Version", "2022-11-28")]
    ∧ ∀ runId : String,
        (jobsRequest ⟨client, owner, repo, wfName⟩ runId).method = "GET"
        ∧ (jobsRequest ⟨client, owner, repo, wfName⟩ runId).headers
            = (runsRequest ⟨client, owner, repo, wfName⟩).headers := by
  have hcl : client.defaultHeaders = githubHeaders token := by
    cases hv : validHeaderValue ("Bearer " ++ token) with
    | false => simp [setup_api_client, hv] at hc
    | true =>
      simp only [setup_api_client, hv, if_true, Except.ok.injEq] at hc
      rw [← hc]
  refine ⟨rfl, rfl, ?_, fun runId => ⟨rfl, rfl⟩⟩
  show client.defaultHeaders = _
  rw [hcl]
  rfl

/-- C8 witness: a concrete owner, repository, workflow and token give the
expected URL with its query, and exactly the four headers. -/
theorem C8_witness :
    (runsRequest ⟨{ defaultHeaders := githubHeaders "tok" },
        "octo", "hello", "ci.yaml"⟩).url
      = "https://api.github.com/repos/octo/hello/actions/workflows/ci.yaml/runs?per_page=10&page=1"
    ∧ (runsRequest ⟨{ defaultHeaders := githubHeaders "tok" },
        "octo", "hello", "ci.yaml"⟩).headers
      = [("Authorization", "Bearer tok"),
         ("Accept", "application/vnd.github+json"),
         ("User-Agent", "action-hero/v0.1.0"),
         ("X-GitHub-Api-Version", "2022-11-28")] := by
  have h := C8_requests "octo" "hello" "ci.yaml" "tok"
      { defaultHeaders := githubHeaders "tok" } rfl
  exact ⟨Eq.trans h.2.1 rfl, Eq.trans h.2.2.1 rfl⟩

/-- C9: round-trip — serializing a synthetic runs-listing and jobs-listing
fixture and feeding it through Run Lister, Job Fetcher and Step Reporter
reproduces exactly the fixture's job names, step names, statuses and
computed durations, in the fixture's original order, with nothing added,
dropped or reordered. -/
theorem C9_roundTrip (ids : List Int) (jobs : List JobFix)
    (hrange : ∀ i ∈ ids, -(2 ^ 63) ≤ i ∧ i < 2 ^ 63)
    (hwf : ∀ j ∈ jobs, ∀ s ∈ j.steps, stepWf s) :
    retrieve_workflow_runs (encodeRunsBody ids)
        = .ok ((ids.take 10).map toString)
    ∧ retrieve_run_jobs (encodeJobsBody jobs) = .ok (jobs.map encodeJob)
    ∧ displayJobSteps (jobs.map encodeJob) = (reportOf jobs, none) :=
  ⟨extractRunIds_of_idsOf _ _
      (idsOf_take _ _ 10 (idsOf_map_mkRunEntry ids hrange)),
   rfl, displayJobSteps_encode jobs hwf⟩

/-- C9 witness: a two-job fixture (two steps, then one step) is reproduced
verbatim: names, statuses, and the 5-second and 60-second durations, in
order. -/
theorem C9_witness :
    retrieve_workflow_runs (encodeRunsBody [9, 8]) = .ok ["9", "8"]
    ∧ displayJobSteps
        (([⟨"lint", [⟨"checkout", "completed",
              "2024-01-01T00:00:00Z", "2024-01-01T00:00:05Z"⟩,
            ⟨"run", "completed",
              "2024-01-01T00:00:05Z", "2024-01-01T00:01:05Z"⟩]⟩,
          ⟨"docs", [⟨"render", "in_progress",
              "2024-01-01T00:02:00Z", "2024-01-01T00:02:05Z"⟩]⟩] :
            List JobFix).map encodeJob)
      = (["lint", "    checkout: completed, 5s", "    run: completed, 1m",
          "docs", "    render: in_progress, 5s"], none) := by
  have h := C9_roundTrip [9, 8]
      [⟨"lint", [⟨"checkout", "completed",
            "2024-01-01T00:00:00Z", "2024-01-01T00:00:05Z"⟩,
          ⟨"run", "completed",
            "2024-01-01T00:00:05Z", "2024-01-01T00:01:05Z"⟩]⟩,
        ⟨"docs", [⟨"render", "in_progress",
            "2024-01-01T00:02:00Z", "2024-01-01T00:02:05Z"⟩]⟩]
      (by decide) (by decide)
  exact ⟨Eq.trans h.1 rfl, Eq.trans h.2.2 rfl⟩

/-- C10: a job whose name field is a string and whose steps field is the
empty array contributes exactly its name line: no step lines, no failure,
and the report continues with the remaining jobs unchanged. -/
theorem C10_emptySteps (job : Json) (nm : String) (rest : List Json)
    (h1 : (job.get "name").asStr = some nm)
    (h2 : (job.get "steps").asArray = some []) :
    displayJobSteps (job :: rest)
      = (nm :: (displayJobSteps rest).1, (displayJobSteps rest).2) := by
  cases hrest : displayJobSteps rest with
  | mk ls e =>
    simp only [displayJobSteps, h1, h2, processSteps, hrest, List.nil_append]

/-- C10 witness: an empty-steps job prints only its name line and the
report continues into the following good job. -/
theorem C10_witness :
    displayJobSteps
        [Json.obj [("name", Json.str "noop"), ("steps", Json.arr [])],
         goodJobJson]
      = (["noop", "setup", "    init: completed, 5s"], none) :=
  Eq.trans
    (C10_emptySteps
      (Json.obj [("name", Json.str "noop"), ("steps", Json.arr [])])
      "noop" [goodJobJson] rfl rfl)
    rfl
